import Mathlib

/-!
Verification of the OpenInfraID import-and-normalize pipeline
(`sortinghat/core/importer/backends/openinfra.py`, exercised by
`tests/test_openinfra.py`).

The backend module itself is not part of the visible sources; only its test
suite is.  Every definition below is therefore modelled from the
specification's component design (spec.md §3-§4), with the concrete
behaviour pinned by the expectations of `tests/test_openinfra.py` wherever
the two disagree in detail.  Dates are modelled as proleptic-Gregorian UTC
datetimes, Unix timestamps as natural numbers of seconds since
1970-01-01T00:00:00Z, and HTTP query strings as association lists of
string pairs.
-/

namespace OpenInfra

/-- Modelled from the spec: a UTC-normalized datetime (all datetimes the
pipeline produces are UTC-aware; no other timezone ever appears). -/
structure DateTimeUTC where
  year : Nat
  month : Nat
  day : Nat
  hour : Nat
  minute : Nat
  second : Nat
deriving DecidableEq

/-- Days since 1970-01-01 of a Gregorian date (civil-to-days conversion,
valid for years ≥ 1970, which covers every date the importer handles). -/
def daysFromCivil (y m d : Nat) : Nat :=
  let y' := if m ≤ 2 then y - 1 else y
  let era := y' / 400
  let yoe := y' - era * 400
  let mp := if m > 2 then m - 3 else m + 9
  let doy := (153 * mp + 2) / 5 + d - 1
  let doe := yoe * 365 + yoe / 4 - yoe / 100 + doy
  era * 146097 + doe - 719468

/-- Gregorian date (year, month, day) of a count of days since
1970-01-01 (days-to-civil conversion). -/
def civilFromDays (n : Nat) : Nat × Nat × Nat :=
  let z := n + 719468
  let era := z / 146097
  let doe := z - era * 146097
  let yoe := (doe - doe / 1460 + doe / 36524 - doe / 146096) / 365
  let y := yoe + era * 400
  let doy := doe - (365 * yoe + yoe / 4 - yoe / 100)
  let mp := (5 * doy + 2) / 153
  let d := doy - (153 * mp + 2) / 5 + 1
  let m := if mp < 10 then mp + 3 else mp - 9
  (if m ≤ 2 then y + 1 else y, m, d)

/-- Unix timestamp (seconds since the epoch) of a UTC datetime.  This is
the numeric value the importer interpolates into the incremental
`filter` query parameter. -/
def toSeconds (d : DateTimeUTC) : Nat :=
  daysFromCivil d.year d.month d.day * 86400 +
    d.hour * 3600 + d.minute * 60 + d.second

/-- Modelled from the spec: UTC datetime of a Unix timestamp, the
parse used for affiliation start/end dates. -/
def tsToDateTime (t : Nat) : DateTimeUTC :=
  let c := civilFromDays (t / 86400)
  ⟨c.1, c.2.1, c.2.2, t % 86400 / 3600, t % 3600 / 60, t % 60⟩

/-- Modelled from the spec: one source-system account tied to an
Individual (`source` tag, display `name` — empty string allowed and
distinct from an absent profile name — and source-system `username`). -/
structure Identity where
  source : String
  name : String
  username : String
deriving DecidableEq

/-- Modelled from the spec: descriptive profile of an Individual. -/
structure Profile where
  name : Option String
  is_bot : Bool
  gender : Option String
deriving DecidableEq

/-- Modelled from the spec: an organization, identified by its name. -/
structure Organization where
  name : String
deriving DecidableEq

/-- Modelled from the spec: a time-bounded affiliation between an
Individual and an Organization; `end = none` means open-ended. -/
structure Enrollment where
  start : DateTimeUTC
  «end» : Option DateTimeUTC
  organization : Organization
deriving DecidableEq

/-- Modelled from the spec: the canonical record for one person. -/
structure Individual where
  uuid : Nat
  profile : Profile
  identities : List Identity
  enrollments : List Enrollment
deriving DecidableEq

/-- Modelled from the spec: one affiliation sub-record of a raw member
record; dates come over the wire as optional Unix timestamps. -/
structure RawAffiliation where
  start_date : Option Nat
  end_date : Option Nat
  organization_name : String
deriving DecidableEq

/-- Modelled from the spec: a raw member record as produced by the
member parser.  `name` is the best available display name field
(`none` = field absent, `some ""` = present but blank), `github_user`
the cross-referenced code-hosting handle, `bot_flag` the explicit
service-account flag. -/
structure RawMember where
  id : Nat
  name : Option String
  github_user : Option String
  gender : Option String
  bot_flag : Option Bool
  affiliations : List RawAffiliation
deriving DecidableEq

/-- The importer's fixed source tag (`OpenInfraIDParser.source`). -/
def openinfraSource : String := "openinfra"

/-- Modelled from the spec: the primary identity of a raw record — the
importer's fixed source tag with the record's uuid as username.  Per the
end-to-end scenario (and `test_fetch_individuals`, where the record with
a blank display name yields only its github identity), the primary
identity is built only when the display name is non-empty. -/
def primaryIdentity (m : RawMember) : List Identity :=
  match m.name with
  | some n => if n = "" then [] else [⟨openinfraSource, n, toString m.id⟩]
  | none => []

/-- Modelled from the spec: cross-referenced identities on other
systems.  A cross-reference is kept only when its handle is non-empty;
its display name is the record's display name (empty string when the
field is blank or absent). -/
def crossIdentities (m : RawMember) : List Identity :=
  match m.github_user with
  | some g => if g = "" then [] else [⟨"github", (m.name).getD "", g⟩]
  | none => []

/-- All identities a raw record yields, primary first, before
deduplication. -/
def rawIdentities (m : RawMember) : List Identity :=
  primaryIdentity m ++ crossIdentities m

/-- Modelled from the spec: deduplicate identities by the pair
(source, username), preserving first-seen order. -/
def dedupIdentities (l : List Identity) : List Identity :=
  l.foldl
    (fun acc i =>
      if acc.any (fun j => j.source == i.source && j.username == i.username)
      then acc else acc ++ [i])
    []

/-- Modelled from the spec: build the Profile of a raw record.  A blank
or absent display name gives `name = none` (the test pins the blank case:
`profile.name is None` while the identity keeps `name = ""`). -/
def mkProfile (m : RawMember) : Profile :=
  ⟨(match m.name with
    | some n => if n = "" then none else some n
    | none => none),
   (m.bot_flag).getD false,
   m.gender⟩

/-- Modelled from the spec: an affiliation sub-record with a parseable
start date yields an Enrollment with UTC-parsed dates and an
Organization from the affiliation's organization-name field; one
without a start date is skipped. -/
def parseEnrollment (a : RawAffiliation) : Option Enrollment :=
  match a.start_date with
  | none => none
  | some s => some ⟨tsToDateTime s, a.end_date.map tsToDateTime, ⟨a.organization_name⟩⟩

/-- All Enrollments of a raw record. -/
def parseEnrollments (m : RawMember) : List Enrollment :=
  m.affiliations.filterMap parseEnrollment

/-- Modelled from the spec: the record normalizer.  A record yielding
zero identities is rejected (`none`); otherwise one Individual with the
deduplicated identities, the profile and the enrollments. -/
def to_individual (m : RawMember) : Option Individual :=
  let ids := dedupIdentities (rawIdentities m)
  if ids.isEmpty then none
  else some ⟨m.id, mkProfile m, ids, parseEnrollments m⟩

/-- Query parameters of one GET request, as an association list. -/
abbrev Params := List (String × String)

/-- Set a query parameter: replace the value under `key` when present,
append the pair otherwise (mapping-update semantics of the payload
dictionary). -/
def setParam (ps : Params) (key v : String) : Params :=
  if ps.any (fun p => p.1 == key) then
    ps.map (fun p => if p.1 = key then (key, v) else p)
  else ps ++ [(key, v)]

/-- Modelled from the spec: the query parameters of the request for page
`k` — the caller-supplied payload untouched on the first request, the
payload with `page` set to `k` from page 2 on. -/
def pageParams (payload : Params) (k : Nat) : Params :=
  if k = 1 then payload else setParam payload "page" (toString k)

/-- Modelled from the spec: one decoded page body — the member entries
under the known wrapping field plus the pagination metadata used as the
next-page indicator. -/
structure RawPage where
  current_page : Nat
  last_page : Nat
  data : List RawMember
deriving DecidableEq

/-- Modelled from the spec: the paginated fetch loop of
`OpenInfraIDParser.fetch_items`.  `server` maps a page number to the
decoded body the remote returns for it; each iteration issues one
request, records the (params, body) pair, and continues with the next
page number while the body's next-page indicator says more pages exist.
`fuel` bounds the loop for termination; any `fuel` at least the number
of pages gives the complete run. -/
def fetchItemsLoop (server : Nat → Option RawPage) (payload : Params) :
    Nat → Nat → List (Params × RawPage)
  | _, 0 => []
  | k, fuel + 1 =>
    match server k with
    | none => []
    | some pg =>
      (pageParams payload k, pg) ::
        (if pg.current_page < pg.last_page then
          fetchItemsLoop server payload (k + 1) fuel
        else [])

/-- Modelled from the spec: `fetch_items` starts at page 1 with the
caller-supplied payload and returns the issued requests paired with the
page bodies, in request order. -/
def fetch_items (server : Nat → Option RawPage) (payload : Params)
    (fuel : Nat) : List (Params × RawPage) :=
  fetchItemsLoop server payload 1 fuel

/-- A remote source exposing exactly the given list of pages, page `k`
being the `k`-th element. -/
def serverOfPages (pages : List RawPage) : Nat → Option RawPage :=
  fun k => pages.get? (k - 1)

/-- The pages of a well-paginated source: page `k` reports
`current_page = k` and `last_page` = the total number of pages. -/
def Paginated (pages : List RawPage) : Prop :=
  ∀ i, i < pages.length →
    (pages.get? i).map RawPage.current_page = some (i + 1) ∧
    (pages.get? i).map RawPage.last_page = some pages.length

instance (pages : List RawPage) : Decidable (Paginated pages) :=
  inferInstanceAs (Decidable (∀ i, i < pages.length →
    (pages.get? i).map RawPage.current_page = some (i + 1) ∧
    (pages.get? i).map RawPage.last_page = some pages.length))

/-- Modelled from the spec: the fixed query parameters of a member
fetch — `page` 1, `per_page` 100, `sort` most-recently-edited first —
plus, when `from_date` is given, the incremental `filter` term
`last_edited>` followed by the Unix timestamp of `from_date`. -/
def membersPayload (from_date : Option DateTimeUTC) : Params :=
  let base : Params := [("page", "1"), ("per_page", "100"), ("sort", "-last_edited")]
  match from_date with
  | none => base
  | some d => base ++ [("filter", "last_edited>" ++ toString (toSeconds d))]

/-- Modelled from the spec: `fetch_members` fetches every page with the
member payload and flattens the member entries of each page body, in
page order.  Returns the issued requests alongside the raw member
records. -/
def fetch_members (server : Nat → Option RawPage)
    (from_date : Option DateTimeUTC) (fuel : Nat) :
    List Params × List RawMember :=
  let r := fetch_items server (membersPayload from_date) fuel
  (r.map Prod.fst, r.flatMap (fun x => x.2.data))

/-- Modelled from the spec: `individuals` normalizes every fetched raw
member record, silently dropping the `none` results, in fetch order. -/
def individuals (server : Nat → Option RawPage)
    (from_date : Option DateTimeUTC) (fuel : Nat) : List Individual :=
  (fetch_members server from_date fuel).2.filterMap to_individual

/-- Split a character list at every occurrence of a separator. -/
def splitOnChar (c : Char) : List Char → List (List Char)
  | [] => [[]]
  | x :: xs =>
    match splitOnChar c xs with
    | [] => [[x]]
    | h :: t => if x = c then [] :: h :: t else (x :: h) :: t

/-- Numeric value of a non-empty all-digit character list; `none` on
anything else. -/
def charsToNat? (cs : List Char) : Option Nat :=
  match cs with
  | [] => none
  | _ =>
    cs.foldl
      (fun acc c =>
        acc.bind (fun n =>
          if c.isDigit then some (n * 10 + (c.toNat - 48)) else none))
      (some 0)

/-- Modelled from the spec: `str_to_datetime` — parse an
ISO-8601-like `YYYY-MM-DD` date string into a UTC datetime at midnight;
malformed strings are rejected with `none`. -/
def str_to_datetime (s : String) : Option DateTimeUTC :=
  match (splitOnChar '-' s.data).map charsToNat? with
  | [some y, some mo, some d] =>
    if 1 ≤ mo ∧ mo ≤ 12 ∧ 1 ≤ d ∧ d ≤ 31 then some ⟨y, mo, d, 0, 0, 0⟩ else none
  | _ => none

/-- Modelled from the spec: the importer's configuration after
construction — the base URL and the optional incremental cursor,
already parsed into a UTC datetime. -/
structure OpenInfraIDImporter where
  url : String
  from_date : Option DateTimeUTC
deriving DecidableEq

/-- Modelled from the spec: importer construction.  The optional
`from_date` string is parsed exactly once, here, before any fetch; an
unparseable string fails construction (`none`), an omitted one leaves
`from_date = none`. -/
def importerInit (url : String) (from_date : Option String) :
    Option OpenInfraIDImporter :=
  match from_date with
  | none => some ⟨url, none⟩
  | some s => (str_to_datetime s).map (fun d => ⟨url, some d⟩)

/-- Modelled from the spec: first reference member — full display name
plus a github cross-reference (`test_fetch_individuals`, first
individual). -/
def fixtureMember1 : RawMember :=
  ⟨136832, some "name surname", some "random-gh-user", none, none, []⟩

/-- Modelled from the spec: second reference member — display name
present but blank, github cross-reference only
(`test_fetch_individuals`, second individual). -/
def fixtureMember2 : RawMember :=
  ⟨136853, some "", some "random-gh-user-2", none, none, []⟩

/-- Modelled from the spec: third reference member — display name, no
cross-reference, one open-ended affiliation starting
2020-09-01T00:00:00Z (Unix 1598918400) at "Technology Org"
(`test_fetch_individuals`, third individual). -/
def fixtureMember3 : RawMember :=
  ⟨125525, some "name_3 last_name_3", none, none, none,
    [⟨some 1598918400, none, "Technology Org"⟩]⟩

/-- Modelled from the spec: fourth valid reference member. -/
def fixtureMember4 : RawMember :=
  ⟨111111, some "name_4 last_name_4", none, none, none, []⟩

/-- Modelled from the spec: fifth valid reference member. -/
def fixtureMember5 : RawMember :=
  ⟨111112, some "name_5 last_name_5", none, none, none, []⟩

/-- Modelled from the spec: an unusable raw record — no display name
and no cross-referenced handle ("records missing both a name and a
cross-referenced handle are silently excluded"). -/
def unusableMember (k : Nat) : RawMember :=
  ⟨k, none, none, none, none, []⟩

/-- Modelled from the spec: first reference fixture page — 8 of the 15
raw records, reporting page 1 of 2. -/
def fixturePage1 : RawPage :=
  ⟨1, 2,
    [fixtureMember1, unusableMember 200001, unusableMember 200002,
     fixtureMember2, unusableMember 200003, fixtureMember3,
     unusableMember 200004, unusableMember 200005]⟩

/-- Modelled from the spec: second reference fixture page — the
remaining 7 raw records, reporting page 2 of 2. -/
def fixturePage2 : RawPage :=
  ⟨2, 2,
    [unusableMember 200006, fixtureMember4, unusableMember 200007,
     unusableMember 200008, fixtureMember5, unusableMember 200009,
     unusableMember 200010]⟩

/-- The two reference fixture pages. -/
def fixturePages : List RawPage := [fixturePage1, fixturePage2]

/-- The mock server exposing the two reference fixture pages. -/
def fixtureServer : Nat → Option RawPage := serverOfPages fixturePages

/-- Comparison of UTC datetimes by their Unix timestamp. -/
def dtLe (a b : DateTimeUTC) : Prop := toSeconds a ≤ toSeconds b

instance : DecidablePred fun p : DateTimeUTC × DateTimeUTC => dtLe p.1 p.2 :=
  fun p => inferInstanceAs (Decidable (toSeconds p.1 ≤ toSeconds p.2))

instance (a b : DateTimeUTC) : Decidable (dtLe a b) :=
  inferInstanceAs (Decidable (toSeconds a ≤ toSeconds b))

/-- Deduplication never removes anything from the identities a raw
record yields: the primary identity and the cross-references always
carry distinct source tags. -/
lemma dedup_rawIdentities (m : RawMember) :
    dedupIdentities (rawIdentities m) = rawIdentities m := by
  obtain ⟨mid, mname, mgh, mgen, mbot, maff⟩ := m
  cases mname with
  | none =>
    cases mgh with
    | none => rfl
    | some g =>
      by_cases hge : g = "" <;>
        simp [rawIdentities, primaryIdentity, crossIdentities, hge, dedupIdentities]
  | some n =>
    cases mgh with
    | none =>
      by_cases hne : n = "" <;>
        simp [rawIdentities, primaryIdentity, crossIdentities, hne, dedupIdentities]
    | some g =>
      by_cases hne : n = "" <;> by_cases hge : g = "" <;>
        simp [rawIdentities, primaryIdentity, crossIdentities, hne, hge,
          dedupIdentities, openinfraSource]

/-- The normalizer keeps a record exactly when it yields at least one
identity, and then attaches the (deduplicated) identities unchanged. -/
lemma to_individual_eq (m : RawMember) :
    to_individual m =
      if rawIdentities m = [] then none
      else some ⟨m.id, mkProfile m, rawIdentities m, parseEnrollments m⟩ := by
  unfold to_individual
  rw [dedup_rawIdentities]
  rcases h : rawIdentities m with _ | ⟨i, l⟩ <;> simp [h]

/-- C1: the full pipeline over the two reference fixture pages (15 raw
member records) yields exactly 5 Individuals; the first has uuid 136832,
profile name "name surname" and exactly the identities
(openinfra, "136832") then (github, "random-gh-user"); the second has
profile name `none` and a single identity whose name is the empty
string; the third has one Enrollment at "Technology Org" starting
2020-09-01T00:00:00Z with open end. -/
theorem reference_scenario :
    (fetch_members fixtureServer none 2).2.length = 15 ∧
    (individuals fixtureServer none 2).length = 5 ∧
    (individuals fixtureServer none 2).get? 0 =
      some ⟨136832, ⟨some "name surname", false, none⟩,
        [⟨"openinfra", "name surname", "136832"⟩,
         ⟨"github", "name surname", "random-gh-user"⟩], []⟩ ∧
    (individuals fixtureServer none 2).get? 1 =
      some ⟨136853, ⟨none, false, none⟩,
        [⟨"github", "", "random-gh-user-2"⟩], []⟩ ∧
    (individuals fixtureServer none 2).get? 2 =
      some ⟨125525, ⟨some "name_3 last_name_3", false, none⟩,
        [⟨"openinfra", "name_3 last_name_3", "125525"⟩],
        [⟨⟨2020, 9, 1, 0, 0, 0⟩, none, ⟨"Technology Org"⟩⟩]⟩ := by
  exact ⟨by decide, by decide, by decide, by decide, by decide⟩

/-- C2 counterexample: the reference record with uuid 136853 has its
uuid present and the normalizer does produce an Individual from it, yet
no identity of that Individual carries the importer's fixed source tag
(its only identity is the github cross-reference). -/
theorem primary_identity_counterexample :
    fixtureMember2.id = 136853 ∧
    (to_individual fixtureMember2).map
        (fun ind => ind.identities.any
          (fun i => i.source == openinfraSource || i.username == toString (136853 : Nat))) =
      some false := by
  exact ⟨rfl, by decide⟩

/-- C2 (amended): for every raw member record with a non-empty display
name, the normalizer produces an Individual whose first identity is the
primary identity — source the importer's fixed tag, username the uuid
converted to string, name the display name.  (When the display name is
blank or absent no primary identity is built, even though the uuid is
present.) -/
theorem primary_identity_of_named_record (m : RawMember) (n : String)
    (hn : m.name = some n) (hne : n ≠ "") :
    (to_individual m).map (fun ind => ind.identities.head?) =
      some (some ⟨openinfraSource, n, toString m.id⟩) := by
  rw [to_individual_eq]
  have hp : primaryIdentity m = [⟨openinfraSource, n, toString m.id⟩] := by
    simp [primaryIdentity, hn, hne]
  have hr : rawIdentities m = ⟨openinfraSource, n, toString m.id⟩ :: crossIdentities m := by
    simp [rawIdentities, hp]
  simp [hr]

/-- Witness for C2 (amended) at the first reference record. -/
theorem primary_identity_of_named_record_witness :
    fixtureMember1.name = some "name surname" ∧
    (to_individual fixtureMember1).map (fun ind => ind.identities.head?) =
      some (some ⟨openinfraSource, "name surname", toString fixtureMember1.id⟩) :=
  ⟨rfl, primary_identity_of_named_record fixtureMember1 "name surname" rfl (by decide)⟩

/-- C3: every Individual the normalizer produces carries its record's
identities in first-seen order — the primary identity (when built)
followed by the valid cross-references — with no two sharing the
(source, username) pair, so a record with a primary identity plus K
valid cross-references yields exactly 1 + K identities. -/
theorem identities_unique (m : RawMember) (ind : Individual)
    (h : to_individual m = some ind) :
    ind.identities = primaryIdentity m ++ crossIdentities m ∧
    (ind.identities.map (fun i => (i.source, i.username))).Nodup ∧
    ind.identities.length =
      (primaryIdentity m).length + (crossIdentities m).length := by
  rw [to_individual_eq] at h
  by_cases hraw : rawIdentities m = []
  · rw [if_pos hraw] at h
    exact absurd h (by simp)
  · rw [if_neg hraw] at h
    obtain rfl := (Option.some.inj h).symm
    refine ⟨rfl, ?_, by simp [rawIdentities]⟩
    show ((rawIdentities m).map (fun i => (i.source, i.username))).Nodup
    obtain ⟨mid, mname, mgh, mgen, mbot, maff⟩ := m
    cases mname with
    | none =>
      cases mgh with
      | none => simp [rawIdentities, primaryIdentity, crossIdentities]
      | some g =>
        by_cases hge : g = "" <;>
          simp [rawIdentities, primaryIdentity, crossIdentities, hge]
    | some n =>
      cases mgh with
      | none =>
        by_cases hne : n = "" <;>
          simp [rawIdentities, primaryIdentity, crossIdentities, hne]
      | some g =>
        by_cases hne : n = "" <;> by_cases hge : g = "" <;>
          simp [rawIdentities, primaryIdentity, crossIdentities, hne, hge,
            openinfraSource]

/-- The Individual the normalizer produces from `fixtureMember1`. -/
def fixtureIndividual1 : Individual :=
  ⟨136832, ⟨some "name surname", false, none⟩,
    [⟨"openinfra", "name surname", "136832"⟩,
     ⟨"github", "name surname", "random-gh-user"⟩], []⟩

/-- The Individual the normalizer produces from `fixtureMember2`. -/
def fixtureIndividual2 : Individual :=
  ⟨136853, ⟨none, false, none⟩, [⟨"github", "", "random-gh-user-2"⟩], []⟩

/-- Witness for C3 at the first reference record. -/
theorem identities_unique_witness :
    to_individual fixtureMember1 = some fixtureIndividual1 ∧
    (fixtureIndividual1.identities =
        primaryIdentity fixtureMember1 ++ crossIdentities fixtureMember1 ∧
      (fixtureIndividual1.identities.map (fun i => (i.source, i.username))).Nodup ∧
      fixtureIndividual1.identities.length =
        (primaryIdentity fixtureMember1).length +
          (crossIdentities fixtureMember1).length) :=
  ⟨by decide, identities_unique fixtureMember1 fixtureIndividual1 (by decide)⟩

/-- Removing from the input every occurrence of a record the normalizer
rejects leaves the normalized output unchanged: rejected records
contribute nothing, and processing continues over the remaining
records. -/
lemma filterMap_drop_rejected {α β : Type} [DecidableEq α] (f : α → Option β)
    (a : α) (ha : f a = none) (l : List α) :
    l.filterMap f = (l.filter (fun x => x != a)).filterMap f := by
  induction l with
  | nil => rfl
  | cons x l ih =>
    by_cases hx : x = a
    · subst hx
      simp [List.filter_cons, List.filterMap_cons, ha, ih]
    · simp only [List.filter_cons, bne_iff_ne, ne_eq, hx, not_false_eq_true,
        if_pos, List.filterMap_cons]
      cases hfx : f x <;> simp [hfx, ih]

/-- C4: a raw record yielding zero identities is rejected — the
normalizer returns `none`, the record contributes nothing to the
pipeline's output (filtering every occurrence of it out of the fetched
records leaves the output unchanged), the import continues with the
remaining records, and no Individual is ever emitted with an empty
identity list. -/
theorem rejected_record_dropped (m m' : RawMember)
    (server : Nat → Option RawPage) (fd : Option DateTimeUTC) (fuel : Nat)
    (h : rawIdentities m = []) :
    to_individual m = none ∧
    individuals server fd fuel =
      ((fetch_members server fd fuel).2.filter (fun r => r != m)).filterMap
        to_individual ∧
    (to_individual m').all (fun ind => !ind.identities.isEmpty) = true := by
  have hnone : to_individual m = none := by
    rw [to_individual_eq, if_pos h]
  refine ⟨hnone, ?_, ?_⟩
  · exact filterMap_drop_rejected to_individual m hnone _
  · rw [to_individual_eq]
    by_cases hraw : rawIdentities m' = []
    · simp [hraw]
    · rcases hr : rawIdentities m' with _ | ⟨i, l⟩
      · exact absurd hr hraw
      · simp [hraw, hr]

/-- Witness for C4 at an unusable reference record. -/
theorem rejected_record_dropped_witness :
    rawIdentities (unusableMember 200001) = [] ∧
    (to_individual (unusableMember 200001) = none ∧
      individuals fixtureServer none 2 =
        ((fetch_members fixtureServer none 2).2.filter
          (fun r => r != unusableMember 200001)).filterMap to_individual ∧
      (to_individual fixtureMember1).all
        (fun ind => !ind.identities.isEmpty) = true) :=
  ⟨by decide,
   rejected_record_dropped (unusableMember 200001) fixtureMember1
     fixtureServer none 2 (by decide)⟩

/-- C7 counterexample: an affiliation whose raw end timestamp precedes
its raw start timestamp is parsed into an Enrollment whose end lies
strictly before its start — the normalizer performs no ordering check
on the pair. -/
theorem enrollment_order_counterexample :
    parseEnrollment ⟨some 86400, some 0, "Example Org"⟩ =
      some ⟨⟨1970, 1, 2, 0, 0, 0⟩, some ⟨1970, 1, 1, 0, 0, 0⟩,
        ⟨"Example Org"⟩⟩ ∧
    toSeconds ⟨1970, 1, 2, 0, 0, 0⟩ = 86400 ∧
    toSeconds ⟨1970, 1, 1, 0, 0, 0⟩ = 0 ∧
    ¬ dtLe ⟨1970, 1, 2, 0, 0, 0⟩ ⟨1970, 1, 1, 0, 0, 0⟩ := by
  exact ⟨by decide, by decide, by decide, by decide⟩

/-- C7 (amended): an affiliation sub-record without a parseable start
date yields no Enrollment; one with a start date and no end date yields
an Enrollment with `end = none`; one with both dates yields an
Enrollment carrying the UTC-parsed raw start and end unchanged — the
normalizer neither reorders nor validates the pair, so `start ≤ end`
is not guaranteed for inverted raw ranges. -/
theorem enrollment_dates (a : RawAffiliation) :
    (a.start_date = none → parseEnrollment a = none) ∧
    (∀ s, a.start_date = some s → a.end_date = none →
      parseEnrollment a =
        some ⟨tsToDateTime s, none, ⟨a.organization_name⟩⟩) ∧
    (∀ s e, a.start_date = some s → a.end_date = some e →
      parseEnrollment a =
        some ⟨tsToDateTime s, some (tsToDateTime e), ⟨a.organization_name⟩⟩) := by
  refine ⟨fun h => by simp [parseEnrollment, h], ?_, ?_⟩
  · intro s hs he
    simp [parseEnrollment, hs, he]
  · intro s e hs he
    simp [parseEnrollment, hs, he]

/-- Witness for C7 (amended): the open-ended reference affiliation of
the third fixture member parses to 2020-09-01T00:00:00Z with no end. -/
theorem enrollment_dates_witness :
    parseEnrollment ⟨none, none, "No Start Org"⟩ = none ∧
    parseEnrollment ⟨some 1598918400, none, "Technology Org"⟩ =
      some ⟨⟨2020, 9, 1, 0, 0, 0⟩, none, ⟨"Technology Org"⟩⟩ :=
  ⟨(enrollment_dates ⟨none, none, "No Start Org"⟩).1 rfl,
   ((enrollment_dates ⟨some 1598918400, none, "Technology Org"⟩).2.1
       1598918400 rfl rfl).trans (by decide)⟩

/-- C8: importer construction parses the optional `from_date` string
once, at construction time, into a UTC datetime carried by the
importer; an omitted `from_date` leaves `none`; an unparseable string
fails construction itself. -/
theorem importer_init_parses_from_date (url s sbad : String) (d : DateTimeUTC)
    (hok : str_to_datetime s = some d) (hbad : str_to_datetime sbad = none) :
    importerInit url none = some ⟨url, none⟩ ∧
    importerInit url (some s) = some ⟨url, some d⟩ ∧
    importerInit url (some sbad) = none := by
  refine ⟨rfl, ?_, ?_⟩ <;> simp [importerInit, hok, hbad]

/-- Witness for C8: "2023-12-01" parses to 2023-12-01T00:00:00Z and
"not-a-date" fails construction. -/
theorem importer_init_parses_from_date_witness :
    str_to_datetime "2023-12-01" = some ⟨2023, 12, 1, 0, 0, 0⟩ ∧
    (importerInit "https://test-url.com/" none =
        some ⟨"https://test-url.com/", none⟩ ∧
      importerInit "https://test-url.com/" (some "2023-12-01") =
        some ⟨"https://test-url.com/", some ⟨2023, 12, 1, 0, 0, 0⟩⟩ ∧
      importerInit "https://test-url.com/" (some "not-a-date") = none) :=
  ⟨by decide,
   importer_init_parses_from_date "https://test-url.com/" "2023-12-01"
     "not-a-date" ⟨2023, 12, 1, 0, 0, 0⟩ (by decide) (by decide)⟩

/-- C9: a raw record whose display-name field is present but blank
keeps the two name representations distinguishable — the produced
Individual has `profile.name = none` while every identity carries the
empty-string name (and an unusable record is reported as `none`, never
as a sentinel Individual). -/
theorem blank_name_distinguished (m : RawMember) (ind : Individual)
    (hm : m.name = some "") (h : to_individual m = some ind) :
    ind.profile.name = none ∧
    ind.identities.all (fun i => i.name == "") = true := by
  rw [to_individual_eq] at h
  by_cases hraw : rawIdentities m = []
  · rw [if_pos hraw] at h
    exact absurd h (by simp)
  · rw [if_neg hraw] at h
    obtain rfl := (Option.some.inj h).symm
    constructor
    · show (mkProfile m).name = none
      simp [mkProfile, hm]
    · show (rawIdentities m).all (fun i => i.name == "") = true
      have hp : primaryIdentity m = [] := by simp [primaryIdentity, hm]
      cases hg : m.github_user with
      | none =>
        exact absurd (by simp [rawIdentities, hp, crossIdentities, hg]) hraw
      | some g =>
        by_cases hge : g = ""
        · exact absurd
            (by simp [rawIdentities, hp, crossIdentities, hg, hge]) hraw
        · simp [rawIdentities, hp, crossIdentities, hg, hge, hm]

/-- Witness for C9 at the blank-named reference record. -/
theorem blank_name_distinguished_witness :
    to_individual fixtureMember2 = some fixtureIndividual2 ∧
    (fixtureIndividual2.profile.name = none ∧
      fixtureIndividual2.identities.all (fun i => i.name == "") = true) :=
  ⟨by decide, blank_name_distinguished fixtureMember2 fixtureIndividual2
    rfl (by decide)⟩

/-- The fetch loop over a well-paginated source: started at page `k`
with enough fuel, it issues one request per remaining page with the
page-`j` parameters, and yields the remaining page bodies in order. -/
lemma fetchItemsLoop_spec (pages : List RawPage) (payload : Params)
    (hP : Paginated pages) :
    ∀ d k fuel, 1 ≤ k → k + d = pages.length → d + 1 ≤ fuel →
      ((fetchItemsLoop (serverOfPages pages) payload k fuel).map Prod.fst =
        (List.range' k (d + 1)).map (pageParams payload)) ∧
      ((fetchItemsLoop (serverOfPages pages) payload k fuel).map Prod.snd =
        pages.drop (k - 1)) := by
  intro d
  induction d with
  | zero =>
    intro k fuel hk hkd hf
    obtain ⟨f, rfl⟩ : ∃ f, fuel = f + 1 := ⟨fuel - 1, by omega⟩
    have hlt : k - 1 < pages.length := by omega
    obtain ⟨pg, hget, hcur⟩ :
        ∃ pg, pages.get? (k - 1) = some pg ∧ pg.current_page = k - 1 + 1 := by
      have := (hP (k - 1) hlt).1
      rcases hg : pages.get? (k - 1) with _ | pg
      · rw [hg] at this; exact absurd this (by simp)
      · rw [hg] at this
        exact ⟨pg, rfl, by simpa using this⟩
    have hlast : pg.last_page = pages.length := by
      have := (hP (k - 1) hlt).2
      rw [hget] at this
      simpa using this
    have hcur' : pg.current_page = k := by omega
    have hnolt : ¬ pg.current_page < pg.last_page := by omega
    have hdrop : pages.drop (k - 1) = [pg] := by
      have h1 : pages.get? (k - 1) = pages[k - 1]? := (List.get?_eq_getElem? _ _)
      obtain ⟨hn, hel⟩ := List.getElem?_eq_some_iff.mp (h1 ▸ hget)
      rw [List.drop_eq_getElem_cons hn, hel,
        List.drop_eq_nil_of_le (by omega)]
    simp only [fetchItemsLoop, serverOfPages, hget, hnolt, if_neg,
      not_false_eq_true, List.map_cons, List.map_nil, List.range'_one]
    exact ⟨rfl, by rw [hdrop]⟩
  | succ d ih =>
    intro k fuel hk hkd hf
    obtain ⟨f, rfl⟩ : ∃ f, fuel = f + 1 := ⟨fuel - 1, by omega⟩
    have hlt : k - 1 < pages.length := by omega
    obtain ⟨pg, hget, hcur⟩ :
        ∃ pg, pages.get? (k - 1) = some pg ∧ pg.current_page = k - 1 + 1 := by
      have := (hP (k - 1) hlt).1
      rcases hg : pages.get? (k - 1) with _ | pg
      · rw [hg] at this; exact absurd this (by simp)
      · rw [hg] at this
        exact ⟨pg, rfl, by simpa using this⟩
    have hlast : pg.last_page = pages.length := by
      have := (hP (k - 1) hlt).2
      rw [hget] at this
      simpa using this
    have hltpg : pg.current_page < pg.last_page := by omega
    have hdrop : pages.drop (k - 1) = pg :: pages.drop k := by
      have h1 : pages.get? (k - 1) = pages[k - 1]? := (List.get?_eq_getElem? _ _)
      obtain ⟨hn, hel⟩ := List.getElem?_eq_some_iff.mp (h1 ▸ hget)
      have hk1 : k - 1 + 1 = k := by omega
      rw [List.drop_eq_getElem_cons hn, hel, hk1]
    obtain ⟨ih1, ih2⟩ := ih (k + 1) f (by omega) (by omega) (by omega)
    simp only [fetchItemsLoop, serverOfPages, hget, hltpg, if_pos,
      List.map_cons]
    constructor
    · rw [List.range'_succ, List.map_cons, ih1]
    · rw [hdrop, ih2]
      simp

/-- Full fetch of a well-paginated source with enough fuel: page bodies
come back exactly in page order, and request `j` carries the page-`j`
parameters. -/
lemma fetch_items_spec (pages : List RawPage) (payload : Params) (fuel : Nat)
    (hP : Paginated pages) (hne : pages ≠ []) (hfuel : pages.length ≤ fuel) :
    ((fetch_items (serverOfPages pages) payload fuel).map Prod.fst =
      (List.range' 1 pages.length).map (pageParams payload)) ∧
    ((fetch_items (serverOfPages pages) payload fuel).map Prod.snd = pages) := by
  have hlen : 1 ≤ pages.length := List.length_pos.mpr hne
  have h := fetchItemsLoop_spec pages payload hP (pages.length - 1) 1 fuel
    (le_refl 1) (by omega) (by omega)
  rw [fetch_items]
  have hc : pages.length - 1 + 1 = pages.length := by omega
  rw [hc] at h
  simpa using h

/-- Setting one query parameter leaves every pair under a different key
untouched, in both directions. -/
lemma mem_setParam_iff (ps : Params) (key v : String) (kv : String × String)
    (hne : kv.1 ≠ key) : kv ∈ setParam ps key v ↔ kv ∈ ps := by
  unfold setParam
  split
  · constructor
    · intro hm
      obtain ⟨p, hp, hfp⟩ := List.mem_map.mp hm
      by_cases hk : p.1 = key
      · rw [if_pos hk] at hfp
        exact absurd (by rw [← hfp]) hne
      · rw [if_neg hk] at hfp
        rwa [hfp] at hp
    · intro hm
      exact List.mem_map.mpr ⟨kv, hm, by rw [if_neg hne]⟩
  · rw [List.mem_append]
    constructor
    · rintro (h | h)
      · exact h
      · exact absurd (congrArg Prod.fst (List.mem_singleton.mp h)) hne
    · exact Or.inl

/-- The page-`k` request parameters agree with the caller's payload on
every key other than `page`. -/
lemma mem_pageParams_iff (payload : Params) (k : Nat) (kv : String × String)
    (hne : kv.1 ≠ "page") : kv ∈ pageParams payload k ↔ kv ∈ payload := by
  unfold pageParams
  split
  · exact Iff.rfl
  · exact mem_setParam_iff payload "page" (toString k) kv hne

/-- C6: over a source exposing N pages, `fetch_items` issues exactly N
requests — request `j` with the page-`j` parameters, so pages come in
increasing order, bodies yielded in the same order — and every request
agrees with the caller-supplied payload on every query parameter other
than `page`. -/
theorem pagination_completeness (pages : List RawPage) (payload : Params)
    (fuel : Nat) (hP : Paginated pages) (hne : pages ≠ [])
    (hfuel : pages.length ≤ fuel) :
    ((fetch_items (serverOfPages pages) payload fuel).map Prod.fst =
      (List.range' 1 pages.length).map (pageParams payload)) ∧
    ((fetch_items (serverOfPages pages) payload fuel).map Prod.snd = pages) ∧
    ∀ req ∈ (fetch_items (serverOfPages pages) payload fuel).map Prod.fst,
      ∀ kv : String × String, kv.1 ≠ "page" → (kv ∈ req ↔ kv ∈ payload) := by
  obtain ⟨h1, h2⟩ := fetch_items_spec pages payload fuel hP hne hfuel
  refine ⟨h1, h2, ?_⟩
  intro req hreq kv hkv
  rw [h1] at hreq
  obtain ⟨j, _, rfl⟩ := List.mem_map.mp hreq
  exact mem_pageParams_iff payload j kv hkv

/-- Witness for C6 at the two reference fixture pages with the sort
payload of `test_fetch_items_with_payload`. -/
theorem pagination_completeness_witness :
    Paginated fixturePages ∧
    ((fetch_items (serverOfPages fixturePages)
        [("sort", "-last_edited")] 2).map Prod.fst =
      (List.range' 1 fixturePages.length).map
        (pageParams [("sort", "-last_edited")])) ∧
    ((fetch_items (serverOfPages fixturePages)
        [("sort", "-last_edited")] 2).map Prod.snd = fixturePages) :=
  have hP : Paginated fixturePages := by decide
  ⟨hP,
   (pagination_completeness fixturePages [("sort", "-last_edited")] 2 hP
      (by decide) (by decide)).1,
   (pagination_completeness fixturePages [("sort", "-last_edited")] 2 hP
      (by decide) (by decide)).2.1⟩

/-- C10: the first request of `fetch_items` carries the caller-supplied
payload only — no page parameter is added — and the request for page
j ≥ 2 carries the payload with an explicit `page = j` parameter. -/
theorem first_request_unpaged (pages : List RawPage) (payload : Params)
    (fuel j : Nat) (hP : Paginated pages) (hne : pages ≠ [])
    (hfuel : pages.length ≤ fuel) (hj2 : 2 ≤ j) (hjN : j ≤ pages.length) :
    ((fetch_items (serverOfPages pages) payload fuel).map Prod.fst)[0]? =
      some payload ∧
    ((fetch_items (serverOfPages pages) payload fuel).map Prod.fst)[j - 1]? =
      some (setParam payload "page" (toString j)) := by
  obtain ⟨h1, _⟩ := fetch_items_spec pages payload fuel hP hne hfuel
  rw [h1]
  have hlen : 1 ≤ pages.length := List.length_pos.mpr hne
  constructor
  · rw [List.getElem?_map, List.getElem?_range' 1 1 (by omega)]
    simp [pageParams]
  · rw [List.getElem?_map,
      List.getElem?_range' 1 1 (by omega : j - 1 < pages.length)]
    have hj : 1 + 1 * (j - 1) = j := by omega
    rw [hj]
    simp [pageParams, (show ¬ j = 1 by omega)]

/-- Witness for C10 at the two reference fixture pages with the sort
payload: the first request is the bare payload, the second adds
`page = 2`. -/
theorem first_request_unpaged_witness :
    ((fetch_items (serverOfPages fixturePages)
        [("sort", "-last_edited")] 2).map Prod.fst)[0]? =
      some [("sort", "-last_edited")] ∧
    ((fetch_items (serverOfPages fixturePages)
        [("sort", "-last_edited")] 2).map Prod.fst)[2 - 1]? =
      some (setParam [("sort", "-last_edited")] "page" (toString 2)) :=
  first_request_unpaged fixturePages [("sort", "-last_edited")] 2 2
    (by decide) (by decide) (by decide) (by decide) (by decide)

/-- C5: with `from_date` supplied, every member-fetch request carries
the incremental filter `last_edited>` followed by the Unix timestamp of
`from_date`; with `from_date` omitted, no request carries any `filter`
parameter. -/
theorem incremental_filter_injection (pages : List RawPage) (fuel : Nat)
    (d : DateTimeUTC) (hP : Paginated pages) (hne : pages ≠ [])
    (hfuel : pages.length ≤ fuel) :
    (∀ req ∈ (fetch_members (serverOfPages pages) (some d) fuel).1,
      ("filter", "last_edited>" ++ toString (toSeconds d)) ∈ req) ∧
    (∀ req ∈ (fetch_members (serverOfPages pages) none fuel).1,
      ∀ v, ("filter", v) ∉ req) := by
  constructor
  · intro req hreq
    obtain ⟨h1, _⟩ :=
      fetch_items_spec pages (membersPayload (some d)) fuel hP hne hfuel
    have hreq' : req ∈ (fetch_items (serverOfPages pages)
        (membersPayload (some d)) fuel).map Prod.fst := hreq
    rw [h1] at hreq'
    obtain ⟨j, _, rfl⟩ := List.mem_map.mp hreq'
    rw [mem_pageParams_iff _ j _ (by simp)]
    exact List.mem_append_right _ (List.mem_singleton.mpr rfl)
  · intro req hreq v hv
    obtain ⟨h1, _⟩ :=
      fetch_items_spec pages (membersPayload none) fuel hP hne hfuel
    have hreq' : req ∈ (fetch_items (serverOfPages pages)
        (membersPayload none) fuel).map Prod.fst := hreq
    rw [h1] at hreq'
    obtain ⟨j, _, rfl⟩ := List.mem_map.mp hreq'
    rw [mem_pageParams_iff _ j _ (by simp)] at hv
    simp [membersPayload] at hv

/-- Witness for C5 at the reference fixtures with
`from_date = 2000-01-01T00:00:00Z` (Unix timestamp 946684800, as in
`test_fetch_members_from_date`): both issued requests carry the filter
term, and with `from_date` omitted neither request carries one. -/
theorem incremental_filter_injection_witness :
    toSeconds ⟨2000, 1, 1, 0, 0, 0⟩ = 946684800 ∧
    ("filter", "last_edited>" ++ toString (toSeconds ⟨2000, 1, 1, 0, 0, 0⟩)) ∈
      ((fetch_members fixtureServer (some ⟨2000, 1, 1, 0, 0, 0⟩) 2).1.getD 0 []) ∧
    ("filter", "last_edited>" ++ toString (toSeconds ⟨2000, 1, 1, 0, 0, 0⟩)) ∈
      ((fetch_members fixtureServer (some ⟨2000, 1, 1, 0, 0, 0⟩) 2).1.getD 1 []) ∧
    ((fetch_members fixtureServer none 2).1.all
      (fun req => req.all (fun kv => kv.1 != "filter"))) = true :=
  ⟨by decide,
   (incremental_filter_injection fixturePages 2 ⟨2000, 1, 1, 0, 0, 0⟩
      (by decide) (by decide) (by decide)).1 _ (by decide),
   (incremental_filter_injection fixturePages 2 ⟨2000, 1, 1, 0, 0, 0⟩
      (by decide) (by decide) (by decide)).1 _ (by decide),
   by decide⟩

end OpenInfra
